import Mathlib

/-!
Verification of the rematch coordinator (`rematch_manager.py`).

The manager tracks, for one bot session, the pending-rematch state: a
per-opponent offer counter, the snapshot of the last game an offer was made
from, and the lower-cased key of the opponent with an outstanding offer.
Python methods are embedded as pure functions; the stateful methods take and
return a `Rematch_Manager` record.  Logging and the asynchronous delay inside
`offer_rematch` (an `asyncio.sleep` that touches no state) are dropped.
-/

/-- ASCII lower-casing of a string, modelling Python's `str.lower()` on the
ASCII usernames the manager compares. -/
def lower (s : String) : String := ⟨s.data.map Char.toLower⟩

/-- Split a character list at every occurrence of `sep`, modelling Python's
`str.split(sep)` for a one-character separator. -/
def splitOnChar (sep : Char) : List Char → List (List Char)
  | [] => [[]]
  | c :: rest =>
    if c = sep then [] :: splitOnChar sep rest
    else
      match splitOnChar sep rest with
      | [] => [[c]]
      | g :: gs => (c :: g) :: gs

/-- Numeric value of a decimal digit character. -/
def digitVal (c : Char) : Nat := c.toNat - 48

/-- Value of a digit string read in base 10. -/
def digitsVal (cs : List Char) : Nat := cs.foldl (fun a c => a * 10 + digitVal c) 0

/-- All characters are decimal digits. -/
def allDigits (cs : List Char) : Bool := cs.all Char.isDigit

/-- Python `float(s)` on plain decimal literals (optional sign, integer part,
optional fractional part).  The result is the literal's exact value in scaled
form: `some (z, k)` denotes the rational `z / 10 ^ k`.  Exotic forms
(exponents, `inf`, `nan`, underscores, surrounding whitespace) are outside
the model. -/
def pyFloatScaled : List Char → Option (ℤ × ℕ)
  | [] => none
  | '-' :: rest => (pyFloatBody rest).map (fun p => (-p.1, p.2))
  | '+' :: rest => pyFloatBody rest
  | cs => pyFloatBody cs
where
  /-- The unsigned part of a decimal literal, in the same scaled form. -/
  pyFloatBody (body : List Char) : Option (ℤ × ℕ) :=
    match splitOnChar '.' body with
    | [ip] =>
      if !ip.isEmpty && allDigits ip then some ((digitsVal ip : ℤ), 0) else none
    | [ip, fp] =>
      if (!ip.isEmpty || !fp.isEmpty) && allDigits ip && allDigits fp then
        some ((digitsVal ip * 10 ^ fp.length + digitsVal fp : ℤ), fp.length)
      else none
    | _ => none

/-- The rational value denoted by a scaled decimal literal. -/
def scaledVal (p : ℤ × ℕ) : ℚ := (p.1 : ℚ) / (10 : ℚ) ^ p.2

/-- Python `int(s)` on plain decimal literals (optional sign, digits). -/
def pyInt : List Char → Option ℤ
  | [] => none
  | '-' :: rest => (pyIntBody rest).map (fun z => -z)
  | '+' :: rest => pyIntBody rest
  | cs => pyIntBody cs
where
  /-- The unsigned part of a decimal integer literal. -/
  pyIntBody (body : List Char) : Option ℤ :=
    if !body.isEmpty && allDigits body then some (digitsVal body : ℤ) else none

/-- Truncation toward zero of a rational, modelling Python's `int(x)` applied
to a numeric value. -/
def ratTrunc (q : ℚ) : ℤ := if 0 ≤ q then ⌊q⌋ else ⌈q⌉

/-- The color the challenger asks to play, from `enums.py`.
Modelled from the spec: `enums.py` is not included in the sources; the spec
describes "color to offer (the color NOT held by the bot in the prior
game)". -/
inductive Challenge_Color
  | white
  | black
deriving DecidableEq

/-- Lichess variant enumeration, from `enums.py`.
Modelled from the spec: `enums.py` is not included in the sources; the spec
says the variant identifier is mapped to the variant enumeration and an
unrecognized identifier causes construction to fail.  The identifiers are
the Lichess variant keys. -/
inductive Variant
  | standard
  | chess960
  | crazyhouse
  | antichess
  | atomic
  | horde
  | kingOfTheHill
  | racingKings
  | threeCheck
  | fromPosition
deriving DecidableEq

/-- `Variant(identifier)`: look an identifier up in the variant enumeration,
`none` modelling the `ValueError` Python raises for an unrecognized value.
Modelled from the spec, like `Variant` itself. -/
def Variant.fromString : String → Option Variant
  | "standard" => some .standard
  | "chess960" => some .chess960
  | "crazyhouse" => some .crazyhouse
  | "antichess" => some .antichess
  | "atomic" => some .atomic
  | "horde" => some .horde
  | "kingOfTheHill" => some .kingOfTheHill
  | "racingKings" => some .racingKings
  | "threeCheck" => some .threeCheck
  | "fromPosition" => some .fromPosition
  | _ => none

/-- Immutable snapshot of a finished game, from `botli_dataclasses.py`.
Modelled from the spec: that file is not included in the sources; the spec
lists "white/opponent names, their titles/ratings, rated flag, time-control
string (minutes+incrementSeconds), variant identifier". -/
structure Game_Information where
  white_name : String
  black_name : String
  white_title : Option String
  black_title : Option String
  white_rating : Option ℤ
  black_rating : Option ℤ
  rated : Bool
  tc_str : String
  variant : String
deriving DecidableEq

/-- Challenge value object, from `botli_dataclasses.py`.
Modelled from the spec: that file is not included in the sources; the spec
lists "opponent name, initial time (seconds), increment (seconds), rated
flag, color to offer, variant, timeout". -/
structure Challenge_Request where
  opponent_username : String
  initial_time : ℤ
  increment : ℤ
  rated : Bool
  color : Challenge_Color
  variant : Variant
  timeout : ℤ
deriving DecidableEq

/-- The coordinator's state.  `username` and `timeout_seconds` embed the
`self.username` and `self.config.rematch.timeout_seconds` the Python object
captures at construction; the `api` handle and the delay configuration have
no effect on the state and are dropped.  `rematch_counts` is the Python dict
read through `.get(key, 0)`, embedded as a total function defaulting to 0. -/
structure Rematch_Manager where
  username : String
  timeout_seconds : ℤ
  rematch_counts : String → ℕ
  last_game_info : Option Game_Information
  pending_rematch : Option String
  rematch_offered : Bool

/-- `Rematch_Manager.__init__`: empty counters, no last game, no pending
rematch, nothing offered. -/
def Rematch_Manager.init (username : String) (timeout_seconds : ℤ) : Rematch_Manager :=
  { username := username
    timeout_seconds := timeout_seconds
    rematch_counts := fun _ => 0
    last_game_info := none
    pending_rematch := none
    rematch_offered := false }

/-- `_get_opponent_name`: the other player's name when one side's name
matches the bot's username case-insensitively (white checked first),
`none` otherwise. -/
def _get_opponent_name (username : String) (game_info : Game_Information) : Option String :=
  if lower game_info.white_name = lower username then some game_info.black_name
  else if lower game_info.black_name = lower username then some game_info.white_name
  else none

/-- `_create_rematch_challenge`: mirror the color, parse the time control
(`int(float(minutes) * 60)` embedded as truncated division of the scaled
literal), map the variant; `none` models the caught `ValueError`. -/
def _create_rematch_challenge (username : String) (timeout_seconds : ℤ)
    (game_info : Game_Information) (opponent_name : String) : Option Challenge_Request :=
  let color := if lower game_info.white_name = lower username
    then Challenge_Color.black else Challenge_Color.white
  match splitOnChar '+' game_info.tc_str.data with
  | [initial_time_str, increment_str] =>
    match pyFloatScaled initial_time_str, pyInt increment_str with
    | some (z, k), some increment =>
      match Variant.fromString game_info.variant with
      | some variant =>
        some { opponent_username := opponent_name
               initial_time := (z * 60).tdiv ((10 : ℤ) ^ k)
               increment := increment
               rated := game_info.rated
               color := color
               variant := variant
               timeout := timeout_seconds }
      | none => none
    | _, _ => none
  | _ => none

/-- `should_offer_rematch`: resolve the opponent (false when unresolved or
empty, Python's falsy check), then de-duplicate against the pending key;
otherwise always true.  `game_result` and `winner` are accepted and ignored,
as in the source. -/
def should_offer_rematch (m : Rematch_Manager) (game_info : Game_Information)
    (_game_result : String) (_winner : Option String) : Bool :=
  match _get_opponent_name m.username game_info with
  | none => false
  | some opponent_name =>
    if opponent_name = "" then false
    else if m.pending_rematch = some (lower opponent_name) then false
    else true

/-- `offer_rematch`: resolve the opponent (fail fast on `None` or empty),
build the challenge (fail on `None`), then increment the per-opponent
counter, record the pending key and snapshot, reset the offered flag and
return true.  The `asyncio.sleep` delay touches no state and is dropped. -/
def offer_rematch (m : Rematch_Manager) (game_info : Game_Information) :
    Rematch_Manager × Bool :=
  match _get_opponent_name m.username game_info with
  | none => (m, false)
  | some opponent_name =>
    if opponent_name = "" then (m, false)
    else
      match _create_rematch_challenge m.username m.timeout_seconds game_info opponent_name with
      | none => (m, false)
      | some _ =>
        let opponent_key := lower opponent_name
        ({ m with
            rematch_counts := fun k =>
              if k = opponent_key then m.rematch_counts opponent_key + 1
              else m.rematch_counts k
            pending_rematch := some opponent_key
            last_game_info := some game_info
            rematch_offered := false }, true)

/-- `on_rematch_accepted`: clear the pending key and the offered flag; the
counter and `last_game_info` are not touched (the name argument is only
logged). -/
def on_rematch_accepted (m : Rematch_Manager) (_opponent_name : String) : Rematch_Manager :=
  { m with pending_rematch := none, rematch_offered := false }

/-- `on_rematch_declined`: same state change as `on_rematch_accepted`. -/
def on_rematch_declined (m : Rematch_Manager) (_opponent_name : String) : Rematch_Manager :=
  { m with pending_rematch := none, rematch_offered := false }

/-- `on_game_finished`: only reset the offered flag. -/
def on_game_finished (m : Rematch_Manager) (_opponent_name : String) : Rematch_Manager :=
  { m with rematch_offered := false }

/-- `clear_pending_rematch`: clear the pending key, the snapshot and the
offered flag. -/
def clear_pending_rematch (m : Rematch_Manager) : Rematch_Manager :=
  { m with pending_rematch := none, last_game_info := none, rematch_offered := false }

/-- `get_rematch_challenge_request`: `none` when the pending key is falsy
(`None` or the empty string) or there is no snapshot; otherwise rebuild the
challenge from the snapshot, passing the pending key as the opponent name. -/
def get_rematch_challenge_request (m : Rematch_Manager) : Option Challenge_Request :=
  match m.pending_rematch, m.last_game_info with
  | some key, some g =>
    if key = "" then none
    else _create_rematch_challenge m.username m.timeout_seconds g key
  | _, _ => none

/-- The states reachable from a freshly constructed manager by the public
operations. -/
inductive Reachable : Rematch_Manager → Prop
  | init (username : String) (timeout_seconds : ℤ) :
      Reachable (Rematch_Manager.init username timeout_seconds)
  | offer {m : Rematch_Manager} (g : Game_Information) :
      Reachable m → Reachable (offer_rematch m g).1
  | accepted {m : Rematch_Manager} (n : String) :
      Reachable m → Reachable (on_rematch_accepted m n)
  | declined {m : Rematch_Manager} (n : String) :
      Reachable m → Reachable (on_rematch_declined m n)
  | finished {m : Rematch_Manager} (n : String) :
      Reachable m → Reachable (on_game_finished m n)
  | cleared {m : Rematch_Manager} :
      Reachable m → Reachable (clear_pending_rematch m)

/-! Concrete fixtures used for witnesses and counterexamples: the bot
"MyBot" playing white. -/

/-- A rated standard game of the bot (white) against "Alice" at "3+2". -/
def gAlice : Game_Information :=
  { white_name := "MyBot", black_name := "Alice", white_title := some "BOT"
    black_title := none, white_rating := some 2000, black_rating := some 1900
    rated := true, tc_str := "3+2", variant := "standard" }

/-- A rated standard game of the bot (white) against "Bob" at "5+3". -/
def gBob : Game_Information :=
  { white_name := "MyBot", black_name := "Bob", white_title := some "BOT"
    black_title := none, white_rating := some 2000, black_rating := some 1800
    rated := true, tc_str := "5+3", variant := "standard" }

/-- Like `gAlice` but with an unparsable time control. -/
def gBad : Game_Information :=
  { gAlice with tc_str := "bad" }

/-- Like `gAlice` but with time control "0.125+1": an eighth of a minute is
7.5 seconds, separating truncation from rounding. -/
def gEighth : Game_Information :=
  { gAlice with tc_str := "0.125+1" }

/-- A game between two strangers, neither of them the bot. -/
def gStrangers : Game_Information :=
  { gAlice with white_name := "Carol", black_name := "Dave" }

/-- A fresh manager for the bot "MyBot" with a 30 second challenge timeout. -/
def m0 : Rematch_Manager := Rematch_Manager.init "MyBot" 30

/-- The manager after one successful offer to "Alice". -/
def m1 : Rematch_Manager := (offer_rematch m0 gAlice).1

/-- Like `gAlice` but with time control "3.5+2". -/
def g35 : Game_Information :=
  { gAlice with tc_str := "3.5+2" }

/-- The manager after one successful offer to "Bob". -/
def mBob : Rematch_Manager := (offer_rematch m0 gBob).1

/-- The time-control string parses: it splits at `'+'` into exactly two
parts, a decimal literal and an integer literal.  This is exactly the
condition under which the parsing steps of `_create_rematch_challenge`
succeed. -/
def tcParses (tc : String) : Bool :=
  match splitOnChar '+' tc.data with
  | [a, b] => (pyFloatScaled a).isSome && (pyInt b).isSome
  | _ => false

/-- Establishment invariant of the coordinator state: a pending key is
non-empty, is backed by a snapshot in which one side is the bot, and the
snapshot still builds a challenge for the pending key. -/
def StateInv (m : Rematch_Manager) : Prop :=
  ∀ key, m.pending_rematch = some key →
    key ≠ "" ∧ ∃ g, m.last_game_info = some g ∧
      (lower g.white_name = lower m.username ∨ lower g.black_name = lower m.username) ∧
      (_create_rematch_challenge m.username m.timeout_seconds g key).isSome

/-- Truncated division of a scaled literal times 60, the shape Python's
`int(float(s) * 60)` takes in this model, agrees with truncation toward zero
of the exact rational value times 60. -/
theorem tdiv_eq_ratTrunc (a : ℤ) (d : ℕ) (hd : 0 < d) :
    a.tdiv (d : ℤ) = ratTrunc ((a : ℚ) / (d : ℚ)) := by
  have hdQ : (0 : ℚ) < (d : ℚ) := by exact_mod_cast hd
  rcases le_or_lt 0 a with ha | ha
  · have haQ : (0 : ℚ) ≤ (a : ℚ) := by exact_mod_cast ha
    rw [ratTrunc, if_pos (div_nonneg haQ hdQ.le), Rat.floor_intCast_div_natCast,
      Int.tdiv_eq_ediv ha (by exact_mod_cast hd.le)]
  · have haQ : (a : ℚ) < 0 := by exact_mod_cast ha
    have hq : (a : ℚ) / (d : ℚ) < 0 := div_neg_of_neg_of_pos haQ hdQ
    rw [ratTrunc, if_neg (not_le.mpr hq)]
    have h1 : (a : ℚ) / (d : ℚ) = -(((-a : ℤ) : ℚ) / (d : ℚ)) := by push_cast; ring
    rw [h1, Int.ceil_neg, Rat.floor_intCast_div_natCast]
    have h2 : a.tdiv (d : ℤ) = -((-a).tdiv (d : ℤ)) := by
      rw [Int.neg_tdiv, Int.neg_neg]
    rw [h2, Int.tdiv_eq_ediv (by omega) (by exact_mod_cast hd.le)]

example : pyFloatScaled "3.5".data = some (35, 1) := by decide
example : pyFloatScaled "0.125".data = some (125, 3) := by decide
example : pyFloatScaled "bad".data = none := by decide
example : pyFloatScaled "3".data = some (3, 0) := by decide
example : pyFloatScaled "-2.5".data = some (-25, 1) := by decide
example : pyInt "3".data = some 3 := by decide
example : pyInt "".data = none := by decide
example : (35 * 60 : ℤ).tdiv ((10 : ℤ) ^ 1) = 210 := by decide
example : (125 * 60 : ℤ).tdiv ((10 : ℤ) ^ 3) = 7 := by decide

example : lower "MyBot" = "mybot" := by decide
example : (offer_rematch m0 gAlice).2 = true := by decide
example : m1.pending_rematch = some "alice" := by decide
example : m1.rematch_counts "alice" = 1 := by decide
example : get_rematch_challenge_request m1 =
    some { opponent_username := "alice", initial_time := 180, increment := 2
           rated := true, color := Challenge_Color.black
           variant := Variant.standard, timeout := 30 } := by decide

/-- Lower-casing sends only the empty string to the empty string. -/
theorem lower_eq_empty_iff (s : String) : lower s = "" ↔ s = "" := by
  obtain ⟨data⟩ := s
  constructor
  · intro h
    have hd := congrArg String.data h
    simp only [lower] at hd
    rcases List.map_eq_nil_iff.mp hd with rfl
    rfl
  · intro h
    rw [h]
    rfl

/-- Whether `_create_rematch_challenge` succeeds does not depend on the
opponent name passed in: the name is only copied into the result. -/
theorem create_isSome_indep (username : String) (timeout_seconds : ℤ)
    (game_info : Game_Information) (n n' : String)
    (h : (_create_rematch_challenge username timeout_seconds game_info n).isSome) :
    (_create_rematch_challenge username timeout_seconds game_info n').isSome := by
  unfold _create_rematch_challenge at h ⊢
  rcases hs : splitOnChar '+' game_info.tc_str.data with _ | ⟨a, _ | ⟨b, _ | _⟩⟩ <;>
      simp [hs] at h ⊢
  rcases hf : pyFloatScaled a with _ | ⟨z, k⟩ <;>
      simp [hf] at h ⊢
  rcases hi : pyInt b with _ | i <;>
      simp [hi] at h ⊢
  rcases hv : Variant.fromString game_info.variant with _ | v <;>
      simp [hv] at h ⊢

/-- Any challenge built by `_create_rematch_challenge` carries the mirrored
color: black when the bot held white in the snapshot, white otherwise. -/
theorem create_color (username : String) (timeout_seconds : ℤ)
    (game_info : Game_Information) (n : String) (req : Challenge_Request)
    (h : _create_rematch_challenge username timeout_seconds game_info n = some req) :
    req.color = if lower game_info.white_name = lower username
      then Challenge_Color.black else Challenge_Color.white := by
  unfold _create_rematch_challenge at h
  rcases hs : splitOnChar '+' game_info.tc_str.data with _ | ⟨a, _ | ⟨b, _ | _⟩⟩ <;>
      simp [hs] at h
  rcases hf : pyFloatScaled a with _ | ⟨z, k⟩ <;>
      simp [hf] at h
  rcases hi : pyInt b with _ | i <;>
      simp [hi] at h
  rcases hv : Variant.fromString game_info.variant with _ | v <;>
      simp [hv] at h
  rw [← h]

/-- A successful opponent resolution means one of the two sides is the bot,
and names the other side. -/
theorem get_opponent_name_cases (username : String) (game_info : Game_Information)
    (n : String) (h : _get_opponent_name username game_info = some n) :
    (lower game_info.white_name = lower username ∧ n = game_info.black_name) ∨
    (lower game_info.white_name ≠ lower username ∧
      lower game_info.black_name = lower username ∧ n = game_info.white_name) := by
  unfold _get_opponent_name at h
  by_cases hw : lower game_info.white_name = lower username
  · left
    rw [if_pos hw] at h
    exact ⟨hw, (Option.some_inj.mp h).symm⟩
  · right
    rw [if_neg hw] at h
    by_cases hb : lower game_info.black_name = lower username
    · rw [if_pos hb] at h
      exact ⟨hw, hb, (Option.some_inj.mp h).symm⟩
    · rw [if_neg hb] at h
      exact absurd h (by simp)

/-- The shape of a successful `offer_rematch`: the resolved opponent is
non-empty, the challenge builds, and the new state records the key, the
snapshot, and the bumped counter. -/
theorem offer_rematch_eq_of_success (m : Rematch_Manager) (game_info : Game_Information)
    (n : String) (c : Challenge_Request)
    (h1 : _get_opponent_name m.username game_info = some n) (h2 : n ≠ "")
    (h3 : _create_rematch_challenge m.username m.timeout_seconds game_info n = some c) :
    offer_rematch m game_info =
      ({ m with
          rematch_counts := fun k =>
            if k = lower n then m.rematch_counts (lower n) + 1
            else m.rematch_counts k
          pending_rematch := some (lower n)
          last_game_info := some game_info
          rematch_offered := false }, true) := by
  unfold offer_rematch
  rw [h1]
  simp only [if_neg h2, h3]

/-- A true result from `offer_rematch` means every stage succeeded. -/
theorem offer_rematch_true_iff (m : Rematch_Manager) (game_info : Game_Information) :
    (offer_rematch m game_info).2 = true ↔
    ∃ n, _get_opponent_name m.username game_info = some n ∧ n ≠ "" ∧
      (_create_rematch_challenge m.username m.timeout_seconds game_info n).isSome := by
  constructor
  · intro h
    unfold offer_rematch at h
    rcases hn : _get_opponent_name m.username game_info with _ | n
    · simp only [hn] at h
      exact Bool.noConfusion h
    · simp only [hn] at h
      by_cases he : n = ""
      · simp only [if_pos he] at h
        exact Bool.noConfusion h
      · simp only [if_neg he] at h
        rcases hc : _create_rematch_challenge m.username m.timeout_seconds game_info n with _ | c
        · simp only [hc] at h
          exact Bool.noConfusion h
        · exact ⟨n, rfl, he, by rw [hc]; rfl⟩
  · rintro ⟨n, hn, he, hc⟩
    rcases Option.isSome_iff_exists.mp hc with ⟨c, hc2⟩
    rw [offer_rematch_eq_of_success m game_info n c hn he hc2]

/-- A false result from `offer_rematch` leaves the state untouched. -/
theorem offer_rematch_false_eq (m : Rematch_Manager) (game_info : Game_Information)
    (h : (offer_rematch m game_info).2 = false) :
    offer_rematch m game_info = (m, false) := by
  unfold offer_rematch at h ⊢
  rcases hn : _get_opponent_name m.username game_info with _ | n
  · simp only [hn]
  · simp only [hn] at h ⊢
    by_cases he : n = ""
    · simp only [if_pos he]
    · simp only [if_neg he] at h ⊢
      rcases hc : _create_rematch_challenge m.username m.timeout_seconds game_info n with _ | c
      · simp only [hc]
      · simp only [hc] at h
        exact Bool.noConfusion h

/-- Every reachable state satisfies `StateInv`. -/
theorem reachable_state_inv (m : Rematch_Manager) (h : Reachable m) : StateInv m := by
  induction h with
  | init username timeout_seconds =>
    intro key hkey
    exact Option.noConfusion hkey
  | offer g hr ih =>
    rename_i m
    rcases hb : (offer_rematch m g).2 with _ | _
    · rw [offer_rematch_false_eq m g hb]
      exact ih
    · rcases (offer_rematch_true_iff m g).mp hb with ⟨n, hn, he, hc⟩
      rcases Option.isSome_iff_exists.mp hc with ⟨c, hc2⟩
      rw [offer_rematch_eq_of_success m g n c hn he hc2]
      intro key hkey
      rcases Option.some_inj.mp hkey with rfl
      refine ⟨fun hk => he ((lower_eq_empty_iff n).mp hk), g, rfl, ?_, ?_⟩
      · rcases get_opponent_name_cases m.username g n hn with ⟨hw, _⟩ | ⟨_, hb2, _⟩
        · exact Or.inl hw
        · exact Or.inr hb2
      · exact create_isSome_indep m.username m.timeout_seconds g n (lower n) hc
  | accepted n hr ih =>
    intro key hkey
    exact Option.noConfusion hkey
  | declined n hr ih =>
    intro key hkey
    exact Option.noConfusion hkey
  | finished n hr ih =>
    intro key hkey
    exact ih key hkey
  | cleared hr ih =>
    intro key hkey
    exact Option.noConfusion hkey

/-- `offer_rematch` never changes the bot's identity or the configured
timeout. -/
theorem offer_preserves_identity (m : Rematch_Manager) (g : Game_Information) :
    (offer_rematch m g).1.username = m.username ∧
    (offer_rematch m g).1.timeout_seconds = m.timeout_seconds := by
  unfold offer_rematch
  rcases _get_opponent_name m.username g with _ | n
  · exact ⟨rfl, rfl⟩
  · dsimp only
    by_cases he : n = ""
    · rw [if_pos he]
      exact ⟨rfl, rfl⟩
    · rw [if_neg he]
      rcases _create_rematch_challenge m.username m.timeout_seconds g n with _ | c
      · exact ⟨rfl, rfl⟩
      · exact ⟨rfl, rfl⟩

/-- C1 counterexample: after a successful `offer_rematch` to "Alice" the
pending key is "alice", yet a second `offer_rematch` for the same snapshot,
with no intervening accept/decline/clear, returns true (not false) and
raises the offer counter to 2 — `offer_rematch` itself performs no pending
de-duplication. -/
theorem second_offer_increments_counterexample :
    m1.pending_rematch = some "alice" ∧
    (offer_rematch m1 gAlice).2 = true ∧
    (offer_rematch m1 gAlice).1.rematch_counts "alice" = 2 := by
  decide

/-- C1 (amended): the pending de-duplication lives in
`should_offer_rematch`, which returns false while an offer is pending for
the same opponent; `offer_rematch` itself, called twice in a row for the
same opponent, returns true again and increments that opponent's counter a
second time. -/
theorem offer_twice_same_opponent_amended (m : Rematch_Manager) (g : Game_Information)
    (game_result : String) (winner : Option String) (n : String)
    (h : (offer_rematch m g).2 = true)
    (hn : _get_opponent_name m.username g = some n) :
    should_offer_rematch (offer_rematch m g).1 g game_result winner = false ∧
    (offer_rematch (offer_rematch m g).1 g).2 = true ∧
    (offer_rematch (offer_rematch m g).1 g).1.rematch_counts (lower n) =
      (offer_rematch m g).1.rematch_counts (lower n) + 1 := by
  rcases (offer_rematch_true_iff m g).mp h with ⟨n2, hn2, he2, hc2⟩
  rw [hn] at hn2
  injection hn2 with hn3
  subst hn3
  rcases Option.isSome_iff_exists.mp hc2 with ⟨c, hc3⟩
  have hu := (offer_preserves_identity m g).1
  have ht := (offer_preserves_identity m g).2
  have hn2 : _get_opponent_name (offer_rematch m g).1.username g = some n := by
    rw [hu]
    exact hn
  have hc4 : _create_rematch_challenge (offer_rematch m g).1.username
      (offer_rematch m g).1.timeout_seconds g n = some c := by
    rw [hu, ht]
    exact hc3
  refine ⟨?_, ?_, ?_⟩
  · unfold should_offer_rematch
    rw [hn2]
    simp only [if_neg he2]
    rw [offer_rematch_eq_of_success m g n c hn he2 hc3]
    simp
  · exact (offer_rematch_true_iff _ g).mpr ⟨n, hn2, he2, by rw [hc4]; rfl⟩
  · rw [offer_rematch_eq_of_success (offer_rematch m g).1 g n c hn2 he2 hc4]
    simp

/-- C1 (amended) witness at the concrete "Alice" scenario. -/
theorem offer_twice_same_opponent_amended_witness :
    ((offer_rematch m0 gAlice).2 = true ∧
      _get_opponent_name m0.username gAlice = some "Alice") ∧
    (should_offer_rematch m1 gAlice "0-1" none = false ∧
      (offer_rematch m1 gAlice).2 = true ∧
      (offer_rematch m1 gAlice).1.rematch_counts (lower "Alice") =
        m1.rematch_counts (lower "Alice") + 1) :=
  ⟨⟨by decide, by decide⟩,
    offer_twice_same_opponent_amended m0 gAlice "0-1" none "Alice" (by decide) (by decide)⟩

/-- C2 counterexample: with an offer to "Alice" pending, both
`on_rematch_accepted` and `on_rematch_declined` leave `last_game_info` set
to the stored snapshot — they do not set it to null as claimed. -/
theorem accepted_keeps_last_game_counterexample :
    (on_rematch_accepted m1 "Alice").last_game_info = some gAlice ∧
    (on_rematch_declined m1 "Alice").last_game_info = some gAlice := by
  decide

/-- C2 (amended): for every opponent name and every state,
`on_rematch_accepted` and `on_rematch_declined` set the pending key to null,
leave `last_game_info` unchanged (it is cleared only by
`clear_pending_rematch`), and leave every entry of the offer counter
unchanged. -/
theorem accepted_declined_clear_amended (m : Rematch_Manager) (n : String) :
    (on_rematch_accepted m n).pending_rematch = none ∧
    (on_rematch_accepted m n).last_game_info = m.last_game_info ∧
    (∀ k, (on_rematch_accepted m n).rematch_counts k = m.rematch_counts k) ∧
    (on_rematch_declined m n).pending_rematch = none ∧
    (on_rematch_declined m n).last_game_info = m.last_game_info ∧
    ∀ k, (on_rematch_declined m n).rematch_counts k = m.rematch_counts k :=
  ⟨rfl, rfl, fun _ => rfl, rfl, rfl, fun _ => rfl⟩

/-- C3 counterexample: the state reached by a successful offer to "Alice"
followed by `on_rematch_declined` is reachable, has a null pending key, but
still carries the snapshot — the claimed "iff" invariant fails. -/
theorem pending_last_iff_counterexample :
    Reachable (on_rematch_declined m1 "Alice") ∧
    (on_rematch_declined m1 "Alice").pending_rematch = none ∧
    (on_rematch_declined m1 "Alice").last_game_info = some gAlice := by
  refine ⟨?_, by decide, by decide⟩
  exact Reachable.declined "Alice" (Reachable.offer gAlice (Reachable.init "MyBot" 30))

/-- C3 (amended): both fields start null at construction, and in every
reachable state a non-null pending key implies a non-null `last_game_info`;
the converse fails because accept/decline clear only the pending key. -/
theorem pending_implies_last_amended :
    (∀ (u : String) (t : ℤ), (Rematch_Manager.init u t).pending_rematch = none ∧
      (Rematch_Manager.init u t).last_game_info = none) ∧
    ∀ m : Rematch_Manager, Reachable m →
      m.pending_rematch ≠ none → m.last_game_info ≠ none := by
  refine ⟨fun u t => ⟨rfl, rfl⟩, ?_⟩
  intro m hr hp
  rcases hpk : m.pending_rematch with _ | key
  · exact absurd hpk hp
  · rcases reachable_state_inv m hr key hpk with ⟨_, g, hg, _⟩
    rw [hg]
    exact fun hcon => Option.noConfusion hcon

/-- C3 (amended) witness at the state with a pending offer to "Alice". -/
theorem pending_implies_last_amended_witness : m1.last_game_info ≠ none :=
  pending_implies_last_amended.2 m1
    (Reachable.offer gAlice (Reachable.init "MyBot" 30)) (by decide)

/-- C5: when neither player name matches the bot's username
case-insensitively, `should_offer_rematch` and `offer_rematch` both return
false and the state is returned unchanged. -/
theorem unresolved_opponent_no_mutation (m : Rematch_Manager) (g : Game_Information)
    (game_result : String) (winner : Option String)
    (hw : lower g.white_name ≠ lower m.username)
    (hb : lower g.black_name ≠ lower m.username) :
    should_offer_rematch m g game_result winner = false ∧
    offer_rematch m g = (m, false) := by
  have hn : _get_opponent_name m.username g = none := by
    unfold _get_opponent_name
    rw [if_neg hw, if_neg hb]
  constructor
  · unfold should_offer_rematch
    rw [hn]
  · unfold offer_rematch
    rw [hn]

/-- C5 witness: a game between "Carol" and "Dave" seen by the bot "MyBot". -/
theorem unresolved_opponent_no_mutation_witness :
    (lower gStrangers.white_name ≠ lower m0.username ∧
      lower gStrangers.black_name ≠ lower m0.username) ∧
    (should_offer_rematch m0 gStrangers "1-0" none = false ∧
      offer_rematch m0 gStrangers = (m0, false)) :=
  ⟨⟨by decide, by decide⟩,
    unresolved_opponent_no_mutation m0 gStrangers "1-0" none (by decide) (by decide)⟩

/-- C8 counterexample: in the end-to-end "Alice" scenario the rebuilt
request's opponent field is the lower-cased key "alice", not "Alice" — the
pending key, not the original name, is passed to the challenge builder. -/
theorem end_to_end_opponent_lowercase_counterexample :
    (get_rematch_challenge_request m1).map Challenge_Request.opponent_username =
      some "alice" ∧ "alice" ≠ "Alice" := by
  decide

/-- C8 (amended): the end-to-end scenario with the opponent field read as
the lower-cased key: the offer succeeds, the rebuilt request is for
"alice" with color black, 180+2, rated, and after a decline a second offer
succeeds and raises the "alice" counter to 2. -/
theorem end_to_end_amended :
    (offer_rematch m0 gAlice).2 = true ∧
    get_rematch_challenge_request m1 =
      some { opponent_username := "alice", initial_time := 180, increment := 2
             rated := true, color := Challenge_Color.black
             variant := Variant.standard, timeout := 30 } ∧
    (on_rematch_declined m1 "Alice").pending_rematch = none ∧
    (offer_rematch (on_rematch_declined m1 "Alice") gAlice).2 = true ∧
    (offer_rematch (on_rematch_declined m1 "Alice") gAlice).1.rematch_counts "alice" = 2 := by
  decide

/-- C9: `on_game_finished` resets only the already-offered flag; the
pending key, the snapshot, every counter entry, and the identity fields are
untouched. -/
theorem game_finished_frame (m : Rematch_Manager) (n : String) :
    (on_game_finished m n).rematch_offered = false ∧
    (on_game_finished m n).pending_rematch = m.pending_rematch ∧
    (on_game_finished m n).last_game_info = m.last_game_info ∧
    (∀ k, (on_game_finished m n).rematch_counts k = m.rematch_counts k) ∧
    (on_game_finished m n).username = m.username ∧
    (on_game_finished m n).timeout_seconds = m.timeout_seconds :=
  ⟨rfl, rfl, rfl, fun _ => rfl, rfl, rfl⟩

/-- C10: a successful `offer_rematch` unconditionally overwrites the single
pending slot with the new opponent's key and snapshot, regardless of any
offer already pending for someone else. -/
theorem offer_overwrites_pending (m : Rematch_Manager) (g : Game_Information) (n : String)
    (hn : _get_opponent_name m.username g = some n)
    (h : (offer_rematch m g).2 = true) :
    (offer_rematch m g).1.pending_rematch = some (lower n) ∧
    (offer_rematch m g).1.last_game_info = some g := by
  rcases (offer_rematch_true_iff m g).mp h with ⟨n2, hn2, he2, hc2⟩
  rw [hn] at hn2
  injection hn2 with hn3
  subst hn3
  rcases Option.isSome_iff_exists.mp hc2 with ⟨c, hc3⟩
  rw [offer_rematch_eq_of_success m g n c hn he2 hc3]
  exact ⟨rfl, rfl⟩

/-- C10 witness: with an offer to "Bob" still pending, a successful offer
to "Alice" silently replaces the pending slot with "alice" and Alice's
snapshot. -/
theorem offer_overwrites_pending_witness :
    (mBob.pending_rematch = some "bob" ∧
      _get_opponent_name mBob.username gAlice = some "Alice" ∧
      (offer_rematch mBob gAlice).2 = true) ∧
    ((offer_rematch mBob gAlice).1.pending_rematch = some (lower "Alice") ∧
      (offer_rematch mBob gAlice).1.last_game_info = some gAlice) :=
  ⟨⟨by decide, by decide, by decide⟩,
    offer_overwrites_pending mBob gAlice "Alice" (by decide) (by decide)⟩

/-- C4 counterexample: the well-formed time control "0.125+1" (7.5 seconds
of initial time) is parsed by the construction to initial time 7 — Python's
`int()` truncates — while rounding 0.125 minutes times 60 gives 8. -/
theorem initial_time_round_counterexample :
    pyFloatScaled "0.125".data = some (125, 3) ∧
    (_create_rematch_challenge "MyBot" 30 gEighth "Alice").map
      Challenge_Request.initial_time = some 7 ∧
    round (scaledVal (125, 3) * 60) = 8 := by
  refine ⟨by decide, by decide, ?_⟩
  have h : scaledVal (125, 3) * 60 = (15 : ℚ) / 2 := by
    unfold scaledVal
    norm_num
  rw [h, round_eq]
  norm_num

/-- C4 (amended): for every well-formed time control
`"<minutesFloat>+<incrementInt>"`, challenge construction sets the initial
time to the truncation toward zero of minutes times 60 (Python's
`int(float(m) * 60)`), and the increment to the integer after the `'+'`;
at "5+3" and "3.5+2" truncation and rounding agree, giving 300+3 and
210+2. -/
theorem initial_time_trunc_amended (u : String) (t : ℤ) (g : Game_Information)
    (opp : String) (req : Challenge_Request) (a b : List Char) (z : ℤ) (k : ℕ) (i : ℤ)
    (hreq : _create_rematch_challenge u t g opp = some req)
    (hs : splitOnChar '+' g.tc_str.data = [a, b])
    (hf : pyFloatScaled a = some (z, k))
    (hi : pyInt b = some i) :
    req.initial_time = ratTrunc (scaledVal (z, k) * 60) ∧ req.increment = i := by
  unfold _create_rematch_challenge at hreq
  rw [hs] at hreq
  simp only [hf, hi] at hreq
  rcases hv : Variant.fromString g.variant with _ | v
  · rw [hv] at hreq
    exact Option.noConfusion hreq
  · rw [hv] at hreq
    injection hreq with hreq2
    subst hreq2
    refine ⟨?_, rfl⟩
    have hcast : ((10 : ℤ) ^ k) = (((10 ^ k : ℕ) : ℤ)) := by push_cast; ring
    have hval : scaledVal (z, k) * 60 = ((z * 60 : ℤ) : ℚ) / (((10 ^ k : ℕ)) : ℚ) := by
      unfold scaledVal
      push_cast
      ring
    show (z * 60).tdiv ((10 : ℤ) ^ k) = ratTrunc (scaledVal (z, k) * 60)
    rw [hcast, hval, tdiv_eq_ratTrunc (z * 60) (10 ^ k) (by positivity)]

/-- C4 (amended) witness at "3.5+2": initial time 210 = trunc(3.5 * 60),
increment 2. -/
theorem initial_time_trunc_amended_witness :
    (_create_rematch_challenge "MyBot" 30 g35 "Alice" =
      some { opponent_username := "Alice", initial_time := 210, increment := 2
             rated := true, color := Challenge_Color.black
             variant := Variant.standard, timeout := 30 }) ∧
    ((210 : ℤ) = ratTrunc (scaledVal (35, 1) * 60) ∧ (2 : ℤ) = 2) :=
  ⟨by decide,
    initial_time_trunc_amended "MyBot" 30 g35 "Alice"
      { opponent_username := "Alice", initial_time := 210, increment := 2
        rated := true, color := Challenge_Color.black
        variant := Variant.standard, timeout := 30 }
      "3.5".data "2".data 35 1 2 (by decide) (by decide) (by decide) (by decide)⟩

/-- C6: a time control that does not parse, or an unrecognized variant,
makes challenge construction return null instead of raising, and makes
`offer_rematch` return false with the whole state unchanged. -/
theorem construction_failure_atomicity (m : Rematch_Manager) (g : Game_Information)
    (opp : String)
    (h : tcParses g.tc_str = false ∨ Variant.fromString g.variant = none) :
    _create_rematch_challenge m.username m.timeout_seconds g opp = none ∧
    offer_rematch m g = (m, false) := by
  have hc : ∀ o : String,
      _create_rematch_challenge m.username m.timeout_seconds g o = none := by
    intro o
    unfold _create_rematch_challenge
    rcases hs : splitOnChar '+' g.tc_str.data with _ | ⟨a, _ | ⟨b, _ | _⟩⟩ <;>
        (dsimp only; try rfl)
    rcases hf : pyFloatScaled a with _ | ⟨z, k⟩
    · simp only [hf]
    · rcases hi : pyInt b with _ | i
      · simp only [hf, hi]
      · rcases h with h | h
        · unfold tcParses at h
          rw [hs] at h
          dsimp only at h
          rw [hf, hi] at h
          simp at h
        · simp only [hf, hi, h]
  refine ⟨hc opp, ?_⟩
  unfold offer_rematch
  rcases hn : _get_opponent_name m.username g with _ | n
  · rfl
  · dsimp only
    by_cases he : n = ""
    · rw [if_pos he]
    · rw [if_neg he, hc n]

/-- C6 witness: the unparsable time control "bad" (no `'+'`). -/
theorem construction_failure_atomicity_witness :
    (tcParses gBad.tc_str = false) ∧
    (_create_rematch_challenge m0.username m0.timeout_seconds gBad "Alice" = none ∧
      offer_rematch m0 gBad = (m0, false)) :=
  ⟨by decide, construction_failure_atomicity m0 gBad "Alice" (Or.inl (by decide))⟩

/-- C7: in every reachable state, `get_rematch_challenge_request` returns
null exactly when the pending key or the snapshot is null; otherwise it
returns a request whose color mirrors the bot's color in the stored
snapshot: black when the bot's username matches the white player
case-insensitively, white when it matches the black player. -/
theorem get_pending_request_spec (m : Rematch_Manager) (h : Reachable m) :
    (get_rematch_challenge_request m = none ↔
      (m.pending_rematch = none ∨ m.last_game_info = none)) ∧
    ∀ req, get_rematch_challenge_request m = some req →
      ∃ g, m.last_game_info = some g ∧
        ((lower g.white_name = lower m.username ∧ req.color = Challenge_Color.black) ∨
         (lower g.white_name ≠ lower m.username ∧
           lower g.black_name = lower m.username ∧
           req.color = Challenge_Color.white)) := by
  have inv := reachable_state_inv m h
  have hbuild : ∀ key g, m.pending_rematch = some key → m.last_game_info = some g →
      ∃ req, get_rematch_challenge_request m = some req ∧
        _create_rematch_challenge m.username m.timeout_seconds g key = some req := by
    intro key g hpk hl
    rcases inv key hpk with ⟨hke, g2, hg2, _, hsome⟩
    rw [hl] at hg2
    injection hg2 with hg3
    subst hg3
    rcases Option.isSome_iff_exists.mp hsome with ⟨req, hreq⟩
    refine ⟨req, ?_, hreq⟩
    unfold get_rematch_challenge_request
    rw [hpk, hl]
    dsimp only
    rw [if_neg hke, hreq]
  constructor
  · constructor
    · intro hget
      by_contra hcon
      push_neg at hcon
      rcases hpk : m.pending_rematch with _ | key
      · exact hcon.1 hpk
      rcases hl : m.last_game_info with _ | g
      · exact hcon.2 hl
      rcases hbuild key g hpk hl with ⟨req, hreq, _⟩
      rw [hget] at hreq
      exact Option.noConfusion hreq
    · intro hor
      unfold get_rematch_challenge_request
      rcases hor with hp | hl
      · rw [hp]
      · rw [hl]
        rcases m.pending_rematch with _ | key <;> rfl
  · intro req hreq
    rcases hpk : m.pending_rematch with _ | key
    · unfold get_rematch_challenge_request at hreq
      rw [hpk] at hreq
      exact Option.noConfusion hreq
    rcases hl : m.last_game_info with _ | g
    · unfold get_rematch_challenge_request at hreq
      rw [hpk, hl] at hreq
      exact Option.noConfusion hreq
    rcases hbuild key g hpk hl with ⟨req2, hreq2, hcreate⟩
    rw [hreq] at hreq2
    injection hreq2 with hreq3
    subst hreq3
    have hcol := create_color m.username m.timeout_seconds g key req hcreate
    rcases inv key hpk with ⟨_, g2, hg2, hmatch, _⟩
    rw [hl] at hg2
    injection hg2 with hg3
    subst hg3
    refine ⟨g, rfl, ?_⟩
    by_cases hw : lower g.white_name = lower m.username
    · exact Or.inl ⟨hw, by rw [hcol, if_pos hw]⟩
    · rcases hmatch with hm | hm
      · exact absurd hm hw
      · exact Or.inr ⟨hw, hm, by rw [hcol, if_neg hw]⟩

/-- C7 witness at the reachable state with a pending offer to "Alice". -/
theorem get_pending_request_spec_witness :
    ((get_rematch_challenge_request m1 = none ↔
      (m1.pending_rematch = none ∨ m1.last_game_info = none)) ∧
    ∀ req, get_rematch_challenge_request m1 = some req →
      ∃ g, m1.last_game_info = some g ∧
        ((lower g.white_name = lower m1.username ∧ req.color = Challenge_Color.black) ∨
         (lower g.white_name ≠ lower m1.username ∧
           lower g.black_name = lower m1.username ∧
           req.color = Challenge_Color.white))) :=
  get_pending_request_spec m1 (Reachable.offer gAlice (Reachable.init "MyBot" 30))
